import Mathlib

/-!
Verification of the batch scheduling and resource-aware execution engine
(`backend/app/services/batch_processing.py` and the batch Celery tasks /
API routes around it).  The Python code is shallowly embedded: pure
fragments become Lean functions, the Redis-backed store and the progress
ledger become explicit state values, the execution backend and the
project-validity database query become oracle parameters, and raised
exceptions become `Except` results.
-/

namespace BatchProcessing

/-! ## Data model -/

/-- `ResourceAllocation` dataclass: capacity vector for CPU / memory / GPU /
storage (`storage_gb` is only compared, never divided, so `Nat` suffices). -/
structure ResourceAllocation where
  cpu_cores : Nat
  memory_mb : Nat
  gpu_count : Nat := 0
  storage_gb : Nat := 0
deriving DecidableEq, Repr

/-- `BatchPriority` enum with numeric values 1 / 5 / 8 / 10. -/
inductive BatchPriority where
  | LOW
  | NORMAL
  | HIGH
  | URGENT
deriving DecidableEq, Repr

/-- Numeric value of a priority (`BatchPriority.value` in the source). -/
def BatchPriority.value : BatchPriority → Nat
  | .LOW => 1
  | .NORMAL => 5
  | .HIGH => 8
  | .URGENT => 10

/-- Reconstructing the enum from its numeric value, as `BatchPriority(data["priority"])`
does; an unknown number raises `ValueError`, modelled as `none`. -/
def batch_priority_of_value (n : Nat) : Option BatchPriority :=
  if n = 1 then some .LOW
  else if n = 5 then some .NORMAL
  else if n = 8 then some .HIGH
  else if n = 10 then some .URGENT
  else none

/-- The `resource_requirements` table of `BatchProcessingService.__init__`,
keyed by task type. -/
def resource_requirements : String → Option ResourceAllocation
  | "content" => some { cpu_cores := 1, memory_mb := 512 }
  | "tts" => some { cpu_cores := 1, memory_mb := 1024 }
  | "video" => some { cpu_cores := 2, memory_mb := 2048 }
  | "advanced_video" => some { cpu_cores := 4, memory_mb := 4096 }
  | "ultra_video" => some { cpu_cores := 4, memory_mb := 8192, gpu_count := 1 }
  | _ => none

/-- `BatchOptimizer.__init__` fixes `self.parallel_limit = 5`; this constant —
not the `BatchJob.parallel_limit` field — is what `_calculate_concurrency`
consults. -/
def batch_optimizer_parallel_limit : Nat := 5

/-- `BatchProcessingService._calculate_concurrency`, with the live resource
snapshot (`ResourceMonitor.get_available_resources`, system telemetry) passed
in as `available` and the optimizer's `parallel_limit` as `optimizer_limit`.
`max_by_gpu` is `float('inf')` when the task type needs no GPU, which simply
drops the GPU term from the minimum. -/
def calculate_concurrency (available : ResourceAllocation) (optimizer_limit : Nat)
    (task_type : String) (task_count : Nat) : Nat :=
  match resource_requirements task_type with
  | none => 1
  | some requirements =>
    let max_by_cpu := available.cpu_cores / requirements.cpu_cores
    let max_by_memory := available.memory_mb / requirements.memory_mb
    let resource_min :=
      if requirements.gpu_count > 0 then
        min (min max_by_cpu max_by_memory) (available.gpu_count / requirements.gpu_count)
      else
        min max_by_cpu max_by_memory
    let max_concurrent := max 1 resource_min
    let max_concurrent := min max_concurrent optimizer_limit
    min max_concurrent task_count

/-- Modelled from the spec: the "resource-derived maximum" of §4.3 — the
minimum over CPU, memory and (only when the task type requires GPUs) GPU of
`floor(available / per-task requirement)`, floored at 1.  Written from the
spec's words for comparison with `calculate_concurrency`. -/
def spec_resource_derived_max (available requirements : ResourceAllocation) : Nat :=
  let cpu_dim := available.cpu_cores / requirements.cpu_cores
  let mem_dim := available.memory_mb / requirements.memory_mb
  let dims :=
    if requirements.gpu_count > 0 then
      [cpu_dim, mem_dim, available.gpu_count / requirements.gpu_count]
    else
      [cpu_dim, mem_dim]
  max 1 (dims.foldr min cpu_dim)

/-- Modelled from the spec: the concurrency bound the claim asserts, namely
`min(resource-derived max, parallel_limit, group size)`. -/
def spec_claimed_concurrency (available requirements : ResourceAllocation)
    (parallel_limit group_size : Nat) : Nat :=
  min (spec_resource_derived_max available requirements) (min parallel_limit group_size)

/-! ## Task synthesis (`BatchOptimizer._create_project_tasks`) -/

/-- The batch `settings` dict, restricted to the keys `_create_project_tasks`
and `_validate_projects` read.  The three `*_settings` sub-dicts are opaque
payloads forwarded as task kwargs. -/
structure Settings where
  generate_content : Bool := false
  generate_tts : Bool := false
  video_quality : String := "medium"
  advanced_video : Bool := false
  content_settings : List (String × String) := []
  tts_settings : List (String × String) := []
  video_settings : List (String × String) := []
deriving DecidableEq, Repr

/-- One task dict of the execution plan. -/
structure TaskDescriptor where
  project_id : Nat
  type : String
  task_name : String
  queue : String
  args : List Nat
  kwargs : List (String × String)
  priority : Nat
  timeout : Nat
  depends_on : List String
deriving DecidableEq, Repr

/-- The render task type chosen from the settings (ultra / advanced / plain). -/
def video_type (s : Settings) : String :=
  if s.video_quality = "ultra" then "ultra_video"
  else if s.advanced_video then "advanced_video"
  else "video"

/-- The queue of the render task. -/
def video_queue (s : Settings) : String :=
  if s.video_quality = "ultra" then "gpu" else "video"

/-- The timeout of the render task. -/
def video_timeout (s : Settings) : Nat :=
  if s.video_quality = "ultra" then 3600
  else if s.advanced_video then 1800
  else 900

/-- `BatchOptimizer._create_project_tasks`: the linear task chain of one
project — optional content task, optional tts task (depending on content when
both are requested), and an unconditional render task (depending on tts when
tts is requested). -/
def create_project_tasks (pid : Nat) (s : Settings) : List TaskDescriptor :=
  (if s.generate_content then
    [{ project_id := pid, type := "content", task_name := "generate_content",
       queue := "content", args := [pid], kwargs := s.content_settings,
       priority := 1, timeout := 300, depends_on := [] }]
  else []) ++
  (if s.generate_tts then
    [{ project_id := pid, type := "tts", task_name := "generate_tts",
       queue := "content", args := [pid], kwargs := s.tts_settings,
       priority := 2, timeout := 300,
       depends_on := if s.generate_content then ["content"] else [] }]
  else []) ++
  [{ project_id := pid, type := video_type s,
     task_name := "generate_" ++ video_type s, queue := video_queue s,
     args := [pid], kwargs := s.video_settings, priority := 3,
     timeout := video_timeout s,
     depends_on := if s.generate_tts then ["tts"] else [] }]

/-- Setting a key in a kwargs dict (`task["kwargs"]["quality"] = "high"`). -/
def assoc_set (kw : List (String × String)) (k v : String) : List (String × String) :=
  match kw with
  | [] => [(k, v)]
  | (k0, v0) :: rest => if k0 = k then (k, v) :: rest else (k0, v0) :: assoc_set rest k v

/-- `BatchOptimizer._optimize_for_speed` on one task: priority becomes HIGH (8). -/
def optimize_for_speed (t : TaskDescriptor) : TaskDescriptor :=
  { t with priority := BatchPriority.HIGH.value }

/-- `BatchOptimizer._optimize_for_cost` on one task: priority becomes LOW (1)
and an advanced-video task on the gpu queue is moved to the video queue. -/
def optimize_for_cost (t : TaskDescriptor) : TaskDescriptor :=
  let t1 := { t with priority := BatchPriority.LOW.value }
  if t1.type = "advanced_video" ∧ t1.queue = "gpu" then { t1 with queue := "video" } else t1

/-- `BatchOptimizer._optimize_for_quality` on one task: render tasks get
`kwargs["quality"] = "high"`. -/
def optimize_for_quality (t : TaskDescriptor) : TaskDescriptor :=
  if t.type = "video" ∨ t.type = "advanced_video" then
    { t with kwargs := assoc_set t.kwargs "quality" "high" }
  else t

/-- The strategy dispatch of `BatchOptimizer.optimize_batch`
(`optimization_strategies.get(strategy, self._optimize_balanced)`); each
strategy mutates tasks pointwise, balanced and unknown names are the identity. -/
def apply_strategy (strategy : String) (t : TaskDescriptor) : TaskDescriptor :=
  if strategy = "speed" then optimize_for_speed t
  else if strategy = "cost" then optimize_for_cost t
  else if strategy = "quality" then optimize_for_quality t
  else t

/-- The flattened (not yet sorted) execution plan of `optimize_batch`:
each project's chain, transformed by the strategy, concatenated in
`project_ids` order. -/
def full_plan (pids : List Nat) (s : Settings) (strategy : String) : List TaskDescriptor :=
  pids.flatMap fun pid => (create_project_tasks pid s).map (apply_strategy strategy)

/-! ## Topological sort (`BatchOptimizer._sort_execution_plan`) -/

/-- Adding a type to the Python `completed_types` set, modelled as a
duplicate-free list. -/
def add_type (types : List String) (ty : String) : List String :=
  if ty ∈ types then types else types ++ [ty]

/-- One full `for task in execution_plan` pass of `_sort_execution_plan`:
tasks already in `sorted_plan` are skipped, tasks whose dependencies are all
in `completed_types` are appended and their type recorded. -/
def sort_pass : List TaskDescriptor → List TaskDescriptor → List String →
    List TaskDescriptor × List String
  | [], sorted, types => (sorted, types)
  | t :: rest, sorted, types =>
    if t ∈ sorted then sort_pass rest sorted types
    else if ∀ d ∈ t.depends_on, d ∈ types then
      sort_pass rest (sorted ++ [t]) (add_type types t.type)
    else sort_pass rest sorted types

/-- The `while len(sorted_plan) < len(execution_plan)` loop, fuel-indexed:
`none` means the fuel ran out, i.e. the Python loop has not terminated within
that many passes. -/
def sort_loop (plan : List TaskDescriptor) :
    Nat → List TaskDescriptor → List String → Option (List TaskDescriptor)
  | 0, sorted, _ => if sorted.length < plan.length then none else some sorted
  | fuel + 1, sorted, types =>
    if sorted.length < plan.length then
      let p := sort_pass plan sorted types
      sort_loop plan fuel p.1 p.2
    else some sorted

/-- `BatchOptimizer._sort_execution_plan` with an explicit pass budget. -/
def sort_execution_plan (fuel : Nat) (plan : List TaskDescriptor) :
    Option (List TaskDescriptor) :=
  sort_loop plan fuel [] []

/-- The Python loop never terminates on this plan: no pass budget suffices. -/
def sort_diverges (plan : List TaskDescriptor) : Prop :=
  ∀ fuel, sort_execution_plan fuel plan = none

/-- The plan suffix can be placed left-to-right in a single pass: each task's
dependencies are already in `types` when it is reached, `types` growing with
each placed task's type (the invariant `_sort_execution_plan` relies on). -/
def deps_satisfiable : List String → List TaskDescriptor → Prop
  | _, [] => True
  | types, t :: rest =>
    (∀ d ∈ t.depends_on, d ∈ types) ∧ deps_satisfiable (add_type types t.type) rest

/-- The per-project sequence of task types implied by the settings. -/
def type_seq (s : Settings) : List String :=
  (if s.generate_content then ["content"] else []) ++
  (if s.generate_tts then ["tts"] else []) ++ [video_type s]

/-- `a` occurs strictly before `b` in `l`. -/
def earlier_in (l : List String) (a b : String) : Prop :=
  ∃ i j, ∃ hi : i < l.length, ∃ hj : j < l.length,
    i < j ∧ l.get ⟨i, hi⟩ = a ∧ l.get ⟨j, hj⟩ = b

/-- Every group's tasks have the group's key as their type. -/
def groups_wf (groups : List (String × List TaskDescriptor)) : Prop :=
  ∀ p ∈ groups, ∀ u ∈ p.2, u.type = p.1

/-- Dependency safety of the sequential group execution order: any group
holding a task some task depends on comes strictly earlier in the list — so,
since `_execute_with_resources` awaits each group to completion before
starting the next, every dependency has reached a terminal state before a
dependent task is submitted. -/
def groups_respect_deps (groups : List (String × List TaskDescriptor)) : Prop :=
  ∀ i j, ∀ hi : i < groups.length, ∀ hj : j < groups.length,
    ∀ t ∈ (groups.get ⟨i, hi⟩).2, ∀ d ∈ t.depends_on,
      ∀ u ∈ (groups.get ⟨j, hj⟩).2, u.type = d → j < i

/-- The render task synthesised for project 1 under all-default settings. -/
def dup_task : TaskDescriptor :=
  { project_id := 1, type := "video", task_name := "generate_video",
    queue := "video", args := [1], kwargs := [], priority := 3, timeout := 900,
    depends_on := [] }

/-- The plan the optimizer synthesises for the duplicated project list
`[1, 1]` under all-default settings: the same task dict twice. -/
def dup_plan : List TaskDescriptor := full_plan [1, 1] {} "balanced"

/-- Lookup in a metadata dict with a default
(`batch_job.metadata.get("optimization_strategy", "balanced")`). -/
def metadata_get (md : List (String × String)) (k dflt : String) : String :=
  match md.lookup k with
  | some v => v
  | none => dflt

/-! ## Batch results and task execution (`_process_single_task`,
`_process_task_group`, `_execute_with_resources`) -/

/-- One entry of the aggregated results lists.  `taskOutcome` is the dict
`_process_single_task` returns (`status` / `project_id` / payload);
`taskFailure` is the `{"task": ..., "error": ...}` dict built when
`asyncio.gather` hands back an exception object — note it records no
top-level `project_id` key. -/
inductive ResultEntry where
  | taskOutcome (status : String) (project_id : Nat) (info : String)
  | taskFailure (task : TaskDescriptor) (error : String)
deriving DecidableEq, Repr

/-- The aggregated `results` dict with its `successful` / `failed` / `skipped`
lists; `error` is the `results["error"]` key written on driver failure. -/
structure BatchResults where
  successful : List ResultEntry := []
  failed : List ResultEntry := []
  skipped : List ResultEntry := []
  error : Option String := none
deriving DecidableEq, Repr

/-- What the backend did with one submitted task: the Celery handle became
ready with `task.successful()` true or false, or the poll loop timed out. -/
inductive WaitResult where
  | ready (success : Bool) (payload : String)
  | timeout
deriving DecidableEq, Repr

/-- `BatchProcessingService._wait_for_task`: a ready handle yields a
`{"status": "success"|"failed", ...}` dict as a VALUE; only the timeout path
raises (`TimeoutError`), modelled as `Except.error`. -/
def wait_for_task : WaitResult → Except String (String × String)
  | .ready true payload => .ok ("success", payload)
  | .ready false payload => .ok ("failed", payload)
  | .timeout => .error "timed out"

/-- The fate of one task submission as seen by `_process_single_task`:
either the submission machinery raised, or the task was submitted and its
wait ended as `wait`. -/
inductive SubmitOutcome where
  | submitError (error : String)
  | submitted (wait : WaitResult)
deriving DecidableEq, Repr

/-- The dict `_process_single_task` returns. -/
structure TaskResult where
  status : String
  project_id : Nat
  info : String
deriving DecidableEq, Repr

/-- `BatchProcessingService._process_single_task`: every exception (including
timeout) is caught and converted into a `failed` record; when the wait
returns, the record's outer status is "success" even if the waited dict says
the Celery task failed — the inner status only travels inside the payload. -/
def process_single_task (pid : Nat) (o : SubmitOutcome) : TaskResult :=
  match o with
  | .submitError e => { status := "failed", project_id := pid, info := e }
  | .submitted w =>
    match wait_for_task w with
    | .ok (st, payload) =>
      { status := "success", project_id := pid, info := st ++ ":" ++ payload }
    | .error e => { status := "failed", project_id := pid, info := e }

/-- One element of the `asyncio.gather(..., return_exceptions=True)` result
list: an exception object, or the dict `_process_single_task` returned. -/
inductive GatherItem where
  | exn (error : String)
  | res (r : TaskResult)
deriving DecidableEq, Repr

/-- The categorisation step of `_process_task_group` for one (task, result)
pair: exceptions and non-success statuses go to `failed`, "success" to
`successful`, "skipped" to `skipped`. -/
def categorize_result (task : TaskDescriptor) (item : GatherItem)
    (acc : BatchResults) : BatchResults :=
  match item with
  | .exn e => { acc with failed := acc.failed ++ [.taskFailure task e] }
  | .res r =>
    if r.status = "success" then
      { acc with successful := acc.successful ++ [.taskOutcome r.status r.project_id r.info] }
    else if r.status = "skipped" then
      { acc with skipped := acc.skipped ++ [.taskOutcome r.status r.project_id r.info] }
    else
      { acc with failed := acc.failed ++ [.taskOutcome r.status r.project_id r.info] }

/-- `BatchProcessingService._process_task_group`: categorise the gather
results, paired with the group's tasks by index. -/
def process_task_group (tasks : List TaskDescriptor) (items : List GatherItem) :
    BatchResults :=
  (tasks.zip items).foldl (fun acc ti => categorize_result ti.1 ti.2 acc) {}

/-- Appending one task to the `defaultdict(list)` grouping of
`_group_tasks_by_resources`, keeping first-occurrence key order as a Python
dict does. -/
def group_insert (groups : List (String × List TaskDescriptor)) (t : TaskDescriptor) :
    List (String × List TaskDescriptor) :=
  match groups with
  | [] => [(t.type, [t])]
  | (k, g) :: rest =>
    if k = t.type then (k, g ++ [t]) :: rest else (k, g) :: group_insert rest t

/-- `BatchProcessingService._group_tasks_by_resources`: group the plan by task
type.  Every task synthesised by the optimizer carries a `type` key, so the
`task.get("type", "content")` default never fires for optimizer plans. -/
def group_tasks_by_resources (plan : List TaskDescriptor) :
    List (String × List TaskDescriptor) :=
  plan.foldl group_insert []

/-- Concatenating one group's results onto the running totals (the three
`extend` calls of `_execute_with_resources`). -/
def merge_results (a b : BatchResults) : BatchResults :=
  { successful := a.successful ++ b.successful
    failed := a.failed ++ b.failed
    skipped := a.skipped ++ b.skipped
    error := a.error }

/-- `BatchProcessingService._execute_with_resources`: groups are processed
strictly one after another (each group's `asyncio.gather` is awaited to
completion before the next group starts); `run` is the backend oracle giving
each submitted task's gather item. -/
def execute_with_resources (run : TaskDescriptor → GatherItem)
    (plan : List TaskDescriptor) : BatchResults :=
  (group_tasks_by_resources plan).foldl
    (fun acc g => merge_results acc (process_task_group g.2 (g.2.map run))) {}

/-! ## BatchJob, the store, and `execute_batch` -/

/-- The `BatchJob` dataclass.  Timestamps are abstract ticks. -/
structure BatchJob where
  batch_id : String
  user_id : Nat
  project_ids : List Nat
  settings : Settings
  priority : BatchPriority := .NORMAL
  parallel_limit : Nat := 3
  created_at : Nat := 0
  started_at : Option Nat := none
  completed_at : Option Nat := none
  status : String := "pending"
  progress : ℚ := 0
  results : BatchResults := {}
  metadata : List (String × String) := []
deriving DecidableEq, Repr

/-- The flat document `_store_batch_job` serialises to Redis.  It has no
`started_at`, `completed_at` or `parallel_limit` field — those are simply not
written. -/
structure StoredBatchData where
  batch_id : String
  user_id : Nat
  project_ids : List Nat
  settings : Settings
  priority : Nat
  status : String
  progress : ℚ
  created_at : Nat
  results : BatchResults
  metadata : List (String × String)
deriving DecidableEq, Repr

/-- `BatchProcessingService._store_batch_job`. -/
def store_batch_job (b : BatchJob) : StoredBatchData :=
  { batch_id := b.batch_id
    user_id := b.user_id
    project_ids := b.project_ids
    settings := b.settings
    priority := b.priority.value
    status := b.status
    progress := b.progress
    created_at := b.created_at
    results := b.results
    metadata := b.metadata }

/-- `BatchProcessingService._get_batch_job` applied to a stored document:
rebuilds the dataclass from the serialised fields only, so `started_at`,
`completed_at` and `parallel_limit` take their dataclass defaults; an invalid
priority number would raise `ValueError` (`none`). -/
def get_batch_job (d : StoredBatchData) : Option BatchJob :=
  match batch_priority_of_value d.priority with
  | none => none
  | some p =>
    some { batch_id := d.batch_id
           user_id := d.user_id
           project_ids := d.project_ids
           settings := d.settings
           priority := p
           status := d.status
           progress := d.progress
           created_at := d.created_at
           results := d.results
           metadata := d.metadata }

/-- The first store write of `execute_batch`: status becomes "processing" and
`started_at` is stamped, unconditionally — the service never checks the
current status. -/
def execute_batch_mark_processing (b : BatchJob) (start : Nat) : BatchJob :=
  { b with status := "processing", started_at := some start }

/-- The tail of `execute_batch` after the processing mark: on a normal return
of `_execute_with_resources` the batch is stored "completed" with progress 100
and the aggregated results; when plan construction / store access raised, the
batch is stored "failed" with the error captured under `results["error"]` and
the exception is re-raised. -/
def execute_batch_finish (b1 : BatchJob) (finish : Nat)
    (run : Except String BatchResults) : BatchJob × Except String BatchResults :=
  match run with
  | .ok results =>
    ({ b1 with status := "completed", completed_at := some finish,
               progress := 100, results := results }, .ok results)
  | .error e =>
    ({ b1 with status := "failed",
               results := { b1.results with error := some e } }, .error e)

/-- `BatchProcessingService.execute_batch` on an already-fetched batch record:
the successive versions written to the store, and the call's own outcome.
`run` is the combined result of plan construction plus execution: `.error` is
a driver-level exception anywhere inside the `try` block. -/
def execute_batch_writes (b : BatchJob) (start finish : Nat)
    (run : Except String BatchResults) : List BatchJob × Except String BatchResults :=
  let b1 := execute_batch_mark_processing b start
  let f := execute_batch_finish b1 finish run
  ([b1, f.1], f.2)

/-- Ordering of batch statuses along the lifecycle (used to state
"never regresses"). -/
def status_rank : String → Nat
  | "pending" => 0
  | "processing" => 1
  | "completed" => 2
  | "failed" => 2
  | _ => 3

/-- `start_batch_processing` (the `/batch/.../start` API route): 404 when the
batch is unknown, 403 when it belongs to another user, 400 when its status is
not "pending"; only then is `execute_batch` scheduled. -/
def start_batch_processing (stored : Option BatchJob) (current_user : Nat) :
    Except (Nat × String) String :=
  match stored with
  | none => .error (404, "Batch not found")
  | some b =>
    if b.user_id ≠ current_user then .error (403, "Access denied")
    else if b.status ≠ "pending" then .error (400, "Batch is already " ++ b.status)
    else .ok b.batch_id

/-! ## Batch creation (`create_batch`, `_validate_projects`) -/

/-- `max_projects_per_batch` from the service configuration. -/
def max_projects_per_batch : Nat := 50

/-- `BatchProcessingService._validate_projects`: the database query returns
each project matching `id IN project_ids` (and the ownership / status /
script-and-audio conditions, abstracted into the oracle `valid`) once, so
duplicates in the input collapse; the surviving ids are collected. -/
def validate_projects (valid : Nat → Bool) (project_ids : List Nat) : List Nat :=
  project_ids.dedup.filter valid

/-- `BatchProcessingService.create_batch`: rejects over-limit batches and
batches with no valid projects; otherwise builds and stores a new pending
`BatchJob` whose `project_ids` are the validated ids. -/
def create_batch (valid : Nat → Bool) (user_id : Nat) (project_ids : List Nat)
    (s : Settings) (priority : Option BatchPriority)
    (metadata : List (String × String)) : Except String BatchJob :=
  if project_ids.length > max_projects_per_batch then
    .error "Batch size exceeds limit"
  else
    let valid_ids := validate_projects valid project_ids
    if valid_ids.isEmpty then .error "No valid projects found for batch processing"
    else
      .ok { batch_id := "batch_fresh-uuid"
            user_id := user_id
            project_ids := valid_ids
            settings := s
            priority := priority.getD .NORMAL
            metadata := metadata }

/-! ## Progress tracker (`BatchProgressTracker`) -/

/-- One per-project progress document stored in the Redis hash. -/
structure ProgressEntry where
  status : String := "pending"
  started_at : Option Nat := none
  completed_at : Option Nat := none
  tasks : List (String × String) := []
deriving DecidableEq, Repr

/-- The per-batch progress hash: project id to progress document. -/
abbrev ProgressMap := List (Nat × ProgressEntry)

/-- `BatchProgressTracker.init_batch`: one pending entry per project. -/
def init_batch (project_ids : List Nat) : ProgressMap :=
  project_ids.map fun pid => (pid, {})

/-- Redis `hset`: replace the field if present, create it otherwise. -/
def hset (m : ProgressMap) (pid : Nat) (e : ProgressEntry) : ProgressMap :=
  match m with
  | [] => [(pid, e)]
  | (p, e0) :: rest => if p = pid then (pid, e) :: rest else (p, e0) :: hset rest pid e

/-- `BatchProgressTracker.update_task_progress`: read the project's current
document (default pending), overwrite its top-level `status` with the new
one, stamp `started_at` on "submitted" and `completed_at` on
"completed"/"failed", record the sub-task entry, and write the document back. -/
def update_task_progress (m : ProgressMap) (pid : Nat) (status : String)
    (task_id : String) (now : Nat) : ProgressMap :=
  let current : ProgressEntry :=
    match m.lookup pid with
    | some e => e
    | none => {}
  let e1 := { current with status := status }
  let e2 :=
    if status = "submitted" then { e1 with started_at := some now }
    else if status = "completed" ∨ status = "failed" then
      { e1 with completed_at := some now }
    else e1
  hset m pid { e2 with tasks := assoc_set e2.tasks task_id status }

/-- The snapshot `get_batch_progress` returns. -/
structure BatchProgress where
  total : Nat
  completed : Nat
  failed : Nat
  pending : Nat
  progress_percentage : ℚ
deriving DecidableEq, Repr

/-- `BatchProgressTracker.get_batch_progress`: scan all project documents;
only "completed" projects count toward the percentage. -/
def get_batch_progress (m : ProgressMap) : BatchProgress :=
  let completed := (m.filter fun e => e.2.status = "completed").length
  let failed := (m.filter fun e => e.2.status = "failed").length
  let pending :=
    (m.filter fun e => ¬(e.2.status = "completed") ∧ ¬(e.2.status = "failed")).length
  let total := completed + failed + pending
  { total := total
    completed := completed
    failed := failed
    pending := pending
    progress_percentage := if total > 0 then (completed : ℚ) / (total : ℚ) * 100 else 0 }

/-- The derived percentage alone. -/
def progress_percentage (m : ProgressMap) : ℚ :=
  (get_batch_progress m).progress_percentage

/-- The number of projects currently marked "completed". -/
def completed_count (m : ProgressMap) : Nat :=
  (m.filter fun e => e.2.status = "completed").length

/-! ## Recovery (`recover_failed_batch_task` in `batch_tasks.py`;
`BatchRecoveryService.recover_failed_batch` itself is an empty stub) -/

/-- `item["project_id"]` on one failed-results entry: the exception-shaped
entry has no such key, so the subscript raises `KeyError`. -/
def entry_project_id : ResultEntry → Except String Nat
  | .taskOutcome _ pid _ => .ok pid
  | .taskFailure _ _ => .error "KeyError: project_id"

/-- The failed-project extraction of `recover_failed_batch_task`. -/
def failed_project_ids (r : BatchResults) : Except String (List Nat) :=
  r.failed.mapM entry_project_id

/-- Outcome of a recovery run. -/
inductive RecoveryResult where
  | noFailures
  | recovered (recovery_projects : List Nat) (new_batch : BatchJob)
deriving DecidableEq, Repr

/-- Projection of a recovery outcome onto the new batch's `project_ids`. -/
def recovered_project_ids : RecoveryResult → Option (List Nat)
  | .noFailures => none
  | .recovered _ nb => some nb.project_ids

/-- `recover_failed_batch_task`: collect the failed project ids of the prior
batch; with `retry_failed_only` and none found, report "no_failures"; else
submit the selected ids (failed ones, or the full original list) through the
normal `create_batch` pipeline with HIGH priority and linking metadata. -/
def recover_failed_batch (valid : Nat → Bool) (prior : BatchJob)
    (retry_failed_only : Bool) : Except String RecoveryResult := do
  let failed_projects ← failed_project_ids prior.results
  if failed_projects.isEmpty ∧ retry_failed_only then
    return .noFailures
  else
    let recovery_projects :=
      if retry_failed_only then failed_projects else prior.project_ids
    let nb ← create_batch valid prior.user_id recovery_projects prior.settings
      (some .HIGH)
      [("original_batch", prior.batch_id), ("recovery_attempt", "1")]
    return .recovered recovery_projects nb

/-! ## Derived observers used in the statements -/

/-- The batch record as stored by the last write of `execute_batch`. -/
def execute_batch_final (b : BatchJob) (start finish : Nat)
    (run : Except String BatchResults) : BatchJob :=
  (execute_batch_finish (execute_batch_mark_processing b start) finish run).1

/-- Whether a results entry refers to the given project. -/
def entry_mentions (pid : Nat) : ResultEntry → Bool
  | .taskOutcome _ p _ => p = pid
  | .taskFailure t _ => t.project_id = pid

/-- How many times a project is classified across the three result lists. -/
def project_mentions (r : BatchResults) (pid : Nat) : Nat :=
  ((r.successful ++ r.failed ++ r.skipped).filter (entry_mentions pid)).length

/-- Total number of classified entries across the three result lists. -/
def total_classified (r : BatchResults) : Nat :=
  r.successful.length + r.failed.length + r.skipped.length

/-! ## Concrete sample records used by witnesses and counterexamples -/

/-- A freshly created (pending) batch over one project. -/
def pending_sample : BatchJob :=
  { batch_id := "w3", user_id := 1, project_ids := [1], settings := {} }

/-- An already completed batch over one project. -/
def completed_sample : BatchJob :=
  { batch_id := "done", user_id := 1, project_ids := [1], settings := {},
    status := "completed" }

/-- A batch carrying both lifecycle timestamps. -/
def timestamped_sample : BatchJob :=
  { batch_id := "b1", user_id := 1, project_ids := [1], settings := {},
    started_at := some 5, completed_at := some 9, status := "completed" }

/-- A completed batch whose failed list records project 1 twice (two of its
tasks failed). -/
def prior_batch_dup : BatchJob :=
  { batch_id := "orig", user_id := 1, project_ids := [1, 2], settings := {},
    status := "completed",
    results := { failed := [.taskOutcome "failed" 1 "e1", .taskOutcome "failed" 1 "e2"] } }

/-- A completed batch whose failed list records exactly project 7. -/
def prior_batch_simple : BatchJob :=
  { batch_id := "orig2", user_id := 1, project_ids := [7, 8], settings := {},
    status := "completed",
    results := { failed := [.taskOutcome "failed" 7 "boom"] } }

end BatchProcessing

namespace BatchProcessing

/-! ## Theorems for C1 -/

/-- C1 (amended): for every task group whose task type has a resource
requirements entry, `_calculate_concurrency` returns exactly
`min(resource-derived max, L, group size)` where `L` is the parallel limit the
service actually consults — the `BatchOptimizer`'s fixed constant — and the
resource-derived max is the spec's formula (min over CPU / memory / GPU-if-required
of `floor(available / requirement)`, floored at 1). -/
theorem c1_concurrency_formula (available req : ResourceAllocation)
    (ty : String) (L n : Nat) (h : resource_requirements ty = some req) :
    calculate_concurrency available L ty n =
      min (spec_resource_derived_max available req) (min L n) := by
  unfold calculate_concurrency spec_resource_derived_max
  rw [h]
  by_cases hg : req.gpu_count > 0 <;>
    simp only [hg, if_true, if_false, List.foldr] <;>
    omega

/-- Witness for C1's theorem at a concrete input: the "content" task type with
4 CPU cores and 8192 MB available. -/
theorem c1_concurrency_formula_witness :
    resource_requirements "content" =
      some { cpu_cores := 1, memory_mb := 512 } ∧
    calculate_concurrency { cpu_cores := 4, memory_mb := 8192 }
        batch_optimizer_parallel_limit "content" 10 =
      min (spec_resource_derived_max { cpu_cores := 4, memory_mb := 8192 }
        { cpu_cores := 1, memory_mb := 512 }) (min batch_optimizer_parallel_limit 10) :=
  ⟨rfl, c1_concurrency_formula { cpu_cores := 4, memory_mb := 8192 }
    { cpu_cores := 1, memory_mb := 512 } "content" batch_optimizer_parallel_limit 10 rfl⟩

/-- C1 counterexample: the claim says the bound uses "the batch's
parallel_limit".  A stored `BatchJob`'s `parallel_limit` is 3 (the dataclass
default; nothing ever sets it), yet with 100 cores / 100000 MB available and a
group of 10 "content" tasks the code computes 5 — the optimizer's constant —
while the claimed formula with the batch's limit gives 3. -/
theorem c1_counterexample :
    calculate_concurrency { cpu_cores := 100, memory_mb := 100000 }
        batch_optimizer_parallel_limit "content" 10 = 5 ∧
    spec_claimed_concurrency { cpu_cores := 100, memory_mb := 100000 }
        { cpu_cores := 1, memory_mb := 512 } 3 10 = 3 ∧
    (5 : Nat) ≠ 3 := by
  refine ⟨?_, ?_, ?_⟩ <;> decide

/-! ## Theorems for C9 (store round-trip) -/

/-- C9 (amended): storing a `BatchJob` and reading it back preserves every
serialised field, but `started_at` and `completed_at` come back `none` and
`parallel_limit` comes back as the dataclass default 3, because
`_store_batch_job` never writes them. -/
theorem c9_roundtrip_modulo_timestamps (b : BatchJob) :
    get_batch_job (store_batch_job b) =
      some { b with started_at := none, completed_at := none, parallel_limit := 3 } := by
  cases b with
  | mk bid uid pids s pr pl ca sa coa st prog res md => cases pr <;> rfl

/-- C9 counterexample: a batch with `started_at = 5` and `completed_at = 9`
does not survive the store round-trip — the claim's "including started_at and
completed_at" fails. -/
theorem c9_counterexample :
    get_batch_job (store_batch_job timestamped_sample) ≠ some timestamped_sample := by
  decide

/-! ## Theorems for C8 (create_batch validation) -/

/-- C8 (amended): `create_batch` raises exactly when the input exceeds 50
entries or validation leaves no valid project (which subsumes the empty
input); duplicates are NOT rejected — validation deduplicates them — and any
successfully created batch has duplicate-free `project_ids` of size at most
50, namely the validated ids. -/
theorem c8_create_batch_validation (valid : Nat → Bool) (uid : Nat)
    (ids : List Nat) (s : Settings) (pr : Option BatchPriority)
    (md : List (String × String)) :
    ((∃ e, create_batch valid uid ids s pr md = .error e) ↔
      ids.length > max_projects_per_batch ∨ validate_projects valid ids = []) ∧
    (∀ b, create_batch valid uid ids s pr md = .ok b →
      b.project_ids.Nodup ∧ b.project_ids.length ≤ max_projects_per_batch ∧
      b.project_ids = validate_projects valid ids) := by
  unfold create_batch
  by_cases hlen : ids.length > max_projects_per_batch
  · simp [hlen]
  · simp only [hlen, if_false]
    by_cases hv : (validate_projects valid ids).isEmpty
    · simp [hv, List.isEmpty_iff.mp hv]
    · have hv' : ¬ validate_projects valid ids = [] := fun h => hv (by simp [h])
      simp only [hv, if_false]
      constructor
      · simp [hv', hlen]
      · intro b hb
        cases hb
        refine ⟨?_, ?_, rfl⟩
        · exact (List.nodup_dedup ids).filter _
        · calc (validate_projects valid ids).length
              ≤ ids.dedup.length := List.length_filter_le _ _
            _ ≤ ids.length := (List.dedup_sublist ids).length_le
            _ ≤ max_projects_per_batch := Nat.le_of_not_lt hlen

/-- Witness for C8's theorem at a concrete input. -/
theorem c8_create_batch_validation_witness :
    ((∃ e, create_batch (fun _ => true) 1 [2, 3] {} none [] = .error e) ↔
      ([2, 3] : List Nat).length > max_projects_per_batch ∨
        validate_projects (fun _ => true) [2, 3] = []) ∧
    (∀ b, create_batch (fun _ => true) 1 [2, 3] {} none [] = .ok b →
      b.project_ids.Nodup ∧ b.project_ids.length ≤ max_projects_per_batch ∧
      b.project_ids = validate_projects (fun _ => true) [2, 3]) :=
  c8_create_batch_validation (fun _ => true) 1 [2, 3] {} none []

/-- C8 counterexample: duplicate `project_ids` do not raise — `[1, 1]` is
accepted and silently stored as `[1]`. -/
theorem c8_counterexample :
    create_batch (fun _ => true) 1 [1, 1] {} none [] =
      .ok { batch_id := "batch_fresh-uuid", user_id := 1, project_ids := [1],
            settings := {} } ∧
    ¬ ([1, 1] : List Nat).Nodup := by
  constructor
  · rfl
  · decide

/-! ## Theorems for C3 (status lifecycle) -/

/-- C3 (amended): for a batch whose status is "pending", `execute_batch`
writes exactly "processing" then a terminal "completed" or "failed", and the
status rank never decreases along these writes; the guard rejecting a batch
whose status is not "pending" lives in the API route `start_batch_processing`
(HTTP 400), not in `execute_batch` itself. -/
theorem c3_lifecycle (b : BatchJob) (start finish : Nat)
    (run : Except String BatchResults) (hb : b.status = "pending") :
    (((execute_batch_writes b start finish run).1.map (fun w => w.status)) =
        ["processing", "completed"] ∨
     ((execute_batch_writes b start finish run).1.map (fun w => w.status)) =
        ["processing", "failed"]) ∧
    List.Chain' (fun x y => status_rank x ≤ status_rank y)
      (b.status :: (execute_batch_writes b start finish run).1.map (fun w => w.status)) ∧
    (∀ c : BatchJob, c.status ≠ "pending" →
      start_batch_processing (some c) c.user_id =
        .error (400, "Batch is already " ++ c.status)) := by
  refine ⟨?_, ?_, ?_⟩
  · cases run <;>
      simp [execute_batch_writes, execute_batch_finish, execute_batch_mark_processing]
  · cases run <;>
      simp [execute_batch_writes, execute_batch_finish, execute_batch_mark_processing,
        hb, status_rank]
  · intro c hc
    simp [start_batch_processing, hc]

/-- Witness for C3's theorem: a concrete pending batch, successful run. -/
theorem c3_lifecycle_witness :
    (((execute_batch_writes pending_sample 1 2 (.ok {})).1.map (fun w => w.status)) =
        ["processing", "completed"] ∨
     ((execute_batch_writes pending_sample 1 2 (.ok {})).1.map (fun w => w.status)) =
        ["processing", "failed"]) ∧
    List.Chain' (fun x y => status_rank x ≤ status_rank y)
      (pending_sample.status ::
        (execute_batch_writes pending_sample 1 2 (.ok {})).1.map (fun w => w.status)) ∧
    (∀ c : BatchJob, c.status ≠ "pending" →
      start_batch_processing (some c) c.user_id =
        .error (400, "Batch is already " ++ c.status)) :=
  c3_lifecycle pending_sample 1 2 (.ok {}) rfl

/-- C3 counterexample: `execute_batch` happily runs on a batch whose status is
"completed" — it returns successfully and its first store write regresses the
status from "completed" back to "processing". -/
theorem c3_counterexample :
    completed_sample.status ≠ "pending" ∧
    (execute_batch_writes completed_sample 1 2 (.ok {})).2 = .ok {} ∧
    ((execute_batch_writes completed_sample 1 2 (.ok {})).1.map (fun w => w.status)) =
      ["processing", "completed"] ∧
    status_rank "processing" < status_rank "completed" := by
  refine ⟨by decide, rfl, rfl, by decide⟩

/-! ## Theorems for C7 (failure isolation) -/

/-- C7: per-task failures and timeouts surface as values, never exceptions —
`_process_single_task` always returns a "success" or "failed" record — so a
run that reaches aggregation completes the batch with progress 100 and the
failures inside `results`; only a driver-level exception marks the batch
"failed", captures the error under `results["error"]`, and re-raises. -/
theorem c7_failure_isolation (b : BatchJob) (start finish : Nat)
    (run : TaskDescriptor → GatherItem) (plan : List TaskDescriptor) (e : String) :
    (∀ pid o, (process_single_task pid o).status = "success" ∨
      (process_single_task pid o).status = "failed") ∧
    (execute_batch_final b start finish (.ok (execute_with_resources run plan))).status =
      "completed" ∧
    (execute_batch_final b start finish (.ok (execute_with_resources run plan))).progress =
      100 ∧
    (execute_batch_final b start finish (.ok (execute_with_resources run plan))).results =
      execute_with_resources run plan ∧
    (execute_batch_writes b start finish (.ok (execute_with_resources run plan))).2 =
      .ok (execute_with_resources run plan) ∧
    (execute_batch_final b start finish (.error e)).status = "failed" ∧
    (execute_batch_final b start finish (.error e)).results.error = some e ∧
    (execute_batch_writes b start finish (.error e)).2 = .error e := by
  refine ⟨?_, ?_, ?_, ?_, ?_, ?_, ?_, ?_⟩
  · intro pid o
    cases o with
    | submitError err => right; rfl
    | submitted w =>
      cases w with
      | ready success payload => cases success <;> left <;> rfl
      | timeout => right; rfl
  all_goals
    simp [execute_batch_final, execute_batch_writes, execute_batch_finish,
      execute_batch_mark_processing]

/-! ## Theorems for C4 (result classification) -/

theorem process_single_task_status (pid : Nat) (o : SubmitOutcome) :
    (process_single_task pid o).status = "success" ∨
    (process_single_task pid o).status = "failed" := by
  cases o with
  | submitError e => right; rfl
  | submitted w =>
    cases w with
    | ready success payload => cases success <;> left <;> rfl
    | timeout => right; rfl

theorem categorize_result_total (t : TaskDescriptor) (i : GatherItem)
    (acc : BatchResults) :
    total_classified (categorize_result t i acc) = total_classified acc + 1 := by
  cases i with
  | exn e => simp [categorize_result, total_classified]; omega
  | res r =>
    by_cases h1 : r.status = "success"
    · simp [categorize_result, h1, total_classified]; omega
    · by_cases h2 : r.status = "skipped" <;>
        simp [categorize_result, h1, h2, total_classified] <;> omega

theorem foldl_categorize_total (l : List (TaskDescriptor × GatherItem))
    (acc : BatchResults) :
    total_classified (l.foldl (fun a ti => categorize_result ti.1 ti.2 a) acc) =
      total_classified acc + l.length := by
  induction l generalizing acc with
  | nil => simp
  | cons hd tl ih =>
    rw [List.foldl_cons, ih, categorize_result_total, List.length_cons]
    omega

theorem categorize_result_skipped (t : TaskDescriptor) (i : GatherItem)
    (acc : BatchResults) (h : ∀ r, i = .res r → ¬ r.status = "skipped") :
    (categorize_result t i acc).skipped = acc.skipped := by
  cases i with
  | exn e => rfl
  | res r =>
    have hr := h r rfl
    by_cases h1 : r.status = "success" <;> simp [categorize_result, h1, hr]

theorem foldl_categorize_skipped (l : List (TaskDescriptor × GatherItem))
    (acc : BatchResults)
    (h : ∀ p ∈ l, ∀ r, p.2 = GatherItem.res r → ¬ r.status = "skipped") :
    (l.foldl (fun a ti => categorize_result ti.1 ti.2 a) acc).skipped = acc.skipped := by
  induction l generalizing acc with
  | nil => rfl
  | cons hd tl ih =>
    rw [List.foldl_cons, ih _ (fun p hp => h p (List.mem_cons_of_mem _ hp)),
      categorize_result_skipped _ _ _ (h hd (List.mem_cons_self _ _))]

/-- C4 (amended): the aggregated results classify each TASK (not each
project) exactly once — the three lists together hold one entry per gather
result; entries produced by `_process_single_task` are never "skipped"-shaped
so the `skipped` list stays empty; and a task whose backend execution failed
without raising is still recorded under the outer status "success". -/
theorem c4_per_task_classification (tasks : List TaskDescriptor)
    (items : List GatherItem) (hlen : items.length = tasks.length) :
    total_classified (process_task_group tasks items) = tasks.length ∧
    ((∀ i ∈ items, ∃ pid o, i = GatherItem.res (process_single_task pid o)) →
      (process_task_group tasks items).skipped = []) ∧
    (∀ pid payload,
      (process_single_task pid (.submitted (.ready false payload))).status = "success") := by
  refine ⟨?_, ?_, fun pid payload => rfl⟩
  · rw [process_task_group, foldl_categorize_total, List.length_zip, hlen]
    simp [total_classified]
  · intro hshape
    rw [process_task_group, foldl_categorize_skipped]
    intro p hp r hr
    have hmem := (List.of_mem_zip hp).2
    obtain ⟨pid, o, ho⟩ := hshape p.2 hmem
    rw [ho] at hr
    cases hr
    rcases process_single_task_status pid o with h | h <;> simp [h]

/-- Witness for C4's theorem: one single-task project, successful run. -/
theorem c4_per_task_classification_witness :
    total_classified (process_task_group (create_project_tasks 1 {})
      [.res (process_single_task 1 (.submitted (.ready true "ok")))]) =
      (create_project_tasks 1 {}).length ∧
    ((∀ i ∈ [GatherItem.res (process_single_task 1 (.submitted (.ready true "ok")))],
        ∃ pid o, i = GatherItem.res (process_single_task pid o)) →
      (process_task_group (create_project_tasks 1 {})
        [.res (process_single_task 1 (.submitted (.ready true "ok")))]).skipped = []) ∧
    (∀ pid payload,
      (process_single_task pid (.submitted (.ready false payload))).status = "success") :=
  c4_per_task_classification (create_project_tasks 1 {})
    [.res (process_single_task 1 (.submitted (.ready true "ok")))] rfl

/-- C4 counterexample: a project contributing two tasks (content + video),
both succeeding, is classified twice in the aggregated results — not "exactly
once" as the claim states. -/
theorem c4_counterexample :
    project_mentions
      (execute_with_resources
        (fun t => .res (process_single_task t.project_id (.submitted (.ready true "ok"))))
        (full_plan [1] { generate_content := true } "balanced")) 1 = 2 ∧
    (2 : Nat) ≠ 1 := by
  exact ⟨by decide, by decide⟩

/-! ## Theorems for C5 (progress monotonicity) -/

theorem batch_progress_total_eq_length (m : ProgressMap) :
    (get_batch_progress m).total = m.length := by
  simp only [get_batch_progress]
  induction m with
  | nil => rfl
  | cons hd tl ih =>
    by_cases h1 : hd.2.status = "completed"
    · simp only [List.filter_cons, h1, List.length_cons] at *
      simp at *
      omega
    · by_cases h2 : hd.2.status = "failed" <;>
        · simp only [List.filter_cons, h1, h2, List.length_cons] at *
          simp [h1, h2] at *
          omega

theorem progress_lookup_cons_ne (p pid : Nat) (ehd : ProgressEntry)
    (tl : ProgressMap) (h : ¬ p = pid) :
    List.lookup pid ((p, ehd) :: tl) = List.lookup pid tl := by
  have hb : (pid == p) = false := by simpa using fun hc => h hc.symm
  simp [List.lookup, hb]

theorem progress_lookup_cons_self (pid : Nat) (ehd : ProgressEntry)
    (tl : ProgressMap) : List.lookup pid ((pid, ehd) :: tl) = some ehd := by
  have hb : (pid == pid) = true := by simp
  simp [List.lookup, hb]

theorem hset_length_of_mem (m : ProgressMap) (pid : Nat) (e e0 : ProgressEntry)
    (hl : m.lookup pid = some e0) : (hset m pid e).length = m.length := by
  induction m with
  | nil => simp [List.lookup] at hl
  | cons hd tl ih =>
    obtain ⟨p, ehd⟩ := hd
    by_cases h : p = pid
    · subst h
      simp [hset]
    · rw [progress_lookup_cons_ne p pid ehd tl h] at hl
      simp [hset, h, ih hl]

theorem hset_completed_le (m : ProgressMap) (pid : Nat) (e e0 : ProgressEntry)
    (hl : m.lookup pid = some e0) (hne : ¬ e0.status = "completed") :
    completed_count m ≤ completed_count (hset m pid e) := by
  induction m with
  | nil => simp [List.lookup] at hl
  | cons hd tl ih =>
    obtain ⟨p, ehd⟩ := hd
    by_cases h : p = pid
    · subst h
      have he : ehd = e0 := by
        rw [progress_lookup_cons_self p ehd tl] at hl
        exact (Option.some.injEq _ _ ▸ hl)
      subst he
      simp only [hset, if_pos rfl]
      by_cases hce : e.status = "completed" <;>
        simp [completed_count, List.filter_cons, hne, hce]
    · rw [progress_lookup_cons_ne p pid ehd tl h] at hl
      simp only [hset, if_neg h]
      by_cases hc : ehd.status = "completed" <;>
        · simp [completed_count, List.filter_cons, hc]
          exact ih hl

theorem progress_percentage_formula (m : ProgressMap) :
    progress_percentage m =
      if 0 < m.length then (completed_count m : ℚ) / (m.length : ℚ) * 100 else 0 := by
  have ht := batch_progress_total_eq_length m
  simp only [progress_percentage, get_batch_progress] at *
  rw [ht]
  rfl

/-- C5 (amended): the derived percentage is non-decreasing across an
`update_task_progress` call PROVIDED the updated project is already tracked
and its current status is not "completed"; when a later task of a project
already marked "completed" is submitted (as happens for every multi-task
project), the project leaves the completed set and the percentage drops. -/
theorem c5_monotone_unless_uncompleting (m : ProgressMap) (pid : Nat)
    (status task_id : String) (now : Nat) (e0 : ProgressEntry)
    (hl : m.lookup pid = some e0) (hne : ¬ e0.status = "completed") :
    progress_percentage m ≤
      progress_percentage (update_task_progress m pid status task_id now) := by
  have hlen : (update_task_progress m pid status task_id now).length = m.length := by
    simp only [update_task_progress]
    exact hset_length_of_mem m pid _ e0 hl
  have hcc : completed_count m ≤
      completed_count (update_task_progress m pid status task_id now) := by
    simp only [update_task_progress]
    exact hset_completed_le m pid _ e0 hl hne
  have hpos : 0 < m.length := by
    cases m with
    | nil => simp [List.lookup] at hl
    | cons hd tl => simp
  rw [progress_percentage_formula, progress_percentage_formula, hlen, if_pos hpos,
    if_pos hpos]
  have hT : (0 : ℚ) < (m.length : ℚ) := by exact_mod_cast hpos
  have hcc' : (completed_count m : ℚ) ≤
      (completed_count (update_task_progress m pid status task_id now) : ℚ) := by
    exact_mod_cast hcc
  gcongr

/-- Witness for C5's theorem: submitting a task of a pending project. -/
theorem c5_monotone_witness :
    progress_percentage [(1, ({} : ProgressEntry))] ≤
      progress_percentage
        (update_task_progress [(1, ({} : ProgressEntry))] 1 "submitted" "t1" 0) :=
  c5_monotone_unless_uncompleting [(1, {})] 1 "submitted" "t1" 0 {} rfl (by decide)

/-! ## Theorems for C6 (recovery) -/

theorem create_batch_all_valid (valid : Nat → Bool) (uid : Nat) (ids : List Nat)
    (s : Settings) (pr : Option BatchPriority) (md : List (String × String))
    (hnd : ids.Nodup) (hval : ∀ x ∈ ids, valid x = true)
    (hlen : ids.length ≤ max_projects_per_batch) (hne : ids ≠ []) :
    create_batch valid uid ids s pr md =
      .ok { batch_id := "batch_fresh-uuid", user_id := uid, project_ids := ids,
            settings := s, priority := pr.getD .NORMAL, metadata := md } := by
  have hv : validate_projects valid ids = ids := by
    rw [validate_projects, List.dedup_eq_self.mpr hnd, List.filter_eq_self.mpr hval]
  simp only [create_batch, hv]
  rw [if_neg (by omega), if_neg (by simpa [List.isEmpty_iff] using hne)]

/-- C6 (amended): `recover_failed_batch` submits exactly the prior batch's
recorded failed project ids (or the full original list when
`retry_failed_only` is false) to `create_batch`, and is a no-op when that
list is empty; the created batch's `project_ids` equal the submitted list
only after `create_batch`'s validation — deduplication and the validity
filter — which here is made explicit by the hypotheses. -/
theorem c6_recovery_selection (valid : Nat → Bool) (prior : BatchJob)
    (fp : List Nat) (hfp : failed_project_ids prior.results = .ok fp)
    (hnd : fp.Nodup) (hval : ∀ x ∈ fp, valid x = true)
    (hlen : fp.length ≤ max_projects_per_batch) :
    (fp = [] → recover_failed_batch valid prior true = .ok .noFailures) ∧
    (fp ≠ [] → ∃ nb, recover_failed_batch valid prior true = .ok (.recovered fp nb) ∧
      nb.project_ids = fp) ∧
    (prior.project_ids ≠ [] → prior.project_ids.Nodup →
      (∀ x ∈ prior.project_ids, valid x = true) →
      prior.project_ids.length ≤ max_projects_per_batch →
      ∃ nb, recover_failed_batch valid prior false =
          .ok (.recovered prior.project_ids nb) ∧
        nb.project_ids = prior.project_ids) := by
  refine ⟨?_, ?_, ?_⟩
  · intro h
    subst h
    simp [recover_failed_batch, hfp, Bind.bind, Except.bind, Pure.pure, Except.pure]
  · intro hne
    have hemp : fp.isEmpty = false := by simpa [List.isEmpty_iff] using hne
    rw [recover_failed_batch, hfp]
    simp only [Bind.bind, Except.bind, Pure.pure, Except.pure, hemp,
      Bool.false_eq_true, false_and, if_false, if_true, ite_true, ite_false]
    rw [create_batch_all_valid valid prior.user_id fp prior.settings (some .HIGH)
      _ hnd hval hlen hne]
    exact ⟨_, rfl, rfl⟩
  · intro hne hnd2 hval2 hlen2
    rw [recover_failed_batch, hfp]
    simp only [Bind.bind, Except.bind, Pure.pure, Except.pure, Bool.false_eq_true,
      and_false, if_false, ite_true, ite_false]
    rw [create_batch_all_valid valid prior.user_id prior.project_ids prior.settings
      (some .HIGH) _ hnd2 hval2 hlen2 hne]
    exact ⟨_, rfl, rfl⟩

/-- Witness for C6's theorem: a prior batch with exactly project 7 failed. -/
theorem c6_recovery_selection_witness :
    (([7] : List Nat) = [] →
      recover_failed_batch (fun _ => true) prior_batch_simple true = .ok .noFailures) ∧
    (([7] : List Nat) ≠ [] →
      ∃ nb, recover_failed_batch (fun _ => true) prior_batch_simple true =
          .ok (.recovered [7] nb) ∧ nb.project_ids = [7]) ∧
    (prior_batch_simple.project_ids ≠ [] → prior_batch_simple.project_ids.Nodup →
      (∀ x ∈ prior_batch_simple.project_ids, (fun _ => true) x = true) →
      prior_batch_simple.project_ids.length ≤ max_projects_per_batch →
      ∃ nb, recover_failed_batch (fun _ => true) prior_batch_simple false =
          .ok (.recovered prior_batch_simple.project_ids nb) ∧
        nb.project_ids = prior_batch_simple.project_ids) :=
  c6_recovery_selection (fun _ => true) prior_batch_simple [7] rfl (by decide)
    (by decide) (by decide)

/-- C6 counterexample: a prior batch whose failed list records project 1
twice.  Recovery submits `[1, 1]`, but the created batch's `project_ids` is
the deduplicated `[1]` — not "exactly the project ids recorded in the prior
batch's failed results". -/
theorem c6_counterexample :
    failed_project_ids prior_batch_dup.results = .ok [1, 1] ∧
    (recover_failed_batch (fun _ => true) prior_batch_dup true).map
        recovered_project_ids = .ok (some [1]) ∧
    some [1] ≠ some ([1, 1] : List Nat) := by
  refine ⟨rfl, rfl, by decide⟩

/-- C5 counterexample: one project, two tasks.  After its first task
completes the percentage is 100; submitting its second task flips the project
back to "submitted" and the percentage falls to 0 — the claimed monotonicity
fails. -/
theorem c5_counterexample :
    progress_percentage
      (update_task_progress
        (update_task_progress (init_batch [1]) 1 "completed" "t1" 0)
        1 "submitted" "t2" 1) <
    progress_percentage (update_task_progress (init_batch [1]) 1 "completed" "t1" 0) := by
  have h1 : progress_percentage
      (update_task_progress (init_batch [1]) 1 "completed" "t1" 0) = 100 := by
    simp +decide [progress_percentage, get_batch_progress, update_task_progress,
      init_batch, hset, assoc_set, List.lookup]
  have h2 : progress_percentage
      (update_task_progress
        (update_task_progress (init_batch [1]) 1 "completed" "t1" 0)
        1 "submitted" "t2" 1) = 0 := by
    simp +decide [progress_percentage, get_batch_progress, update_task_progress,
      init_batch, hset, assoc_set, List.lookup]
  rw [h1, h2]
  norm_num

/-! ## Structural lemmas about the synthesised plan -/

theorem apply_strategy_type (strat : String) (t : TaskDescriptor) :
    (apply_strategy strat t).type = t.type := by
  simp only [apply_strategy, optimize_for_speed, optimize_for_cost, optimize_for_quality]
  split_ifs <;> rfl

theorem apply_strategy_depends_on (strat : String) (t : TaskDescriptor) :
    (apply_strategy strat t).depends_on = t.depends_on := by
  simp only [apply_strategy, optimize_for_speed, optimize_for_cost, optimize_for_quality]
  split_ifs <;> rfl

theorem apply_strategy_project_id (strat : String) (t : TaskDescriptor) :
    (apply_strategy strat t).project_id = t.project_id := by
  simp only [apply_strategy, optimize_for_speed, optimize_for_cost, optimize_for_quality]
  split_ifs <;> rfl

theorem create_project_tasks_types (pid : Nat) (s : Settings) :
    (create_project_tasks pid s).map (fun t => t.type) = type_seq s := by
  cases hgc : s.generate_content <;> cases hgt : s.generate_tts <;>
    simp [create_project_tasks, type_seq, hgc, hgt]

theorem create_project_tasks_keys (pid : Nat) (s : Settings) :
    (create_project_tasks pid s).map (fun t => (t.project_id, t.type)) =
      (type_seq s).map (fun ty => (pid, ty)) := by
  cases hgc : s.generate_content <;> cases hgt : s.generate_tts <;>
    simp [create_project_tasks, type_seq, hgc, hgt]

theorem mem_add_type (types : List String) (ty a : String) :
    a ∈ add_type types ty ↔ a ∈ types ∨ a = ty := by
  unfold add_type
  split_ifs with h
  · exact ⟨Or.inl, fun hc => hc.elim id (fun he => he ▸ h)⟩
  · simp [List.mem_append]

theorem video_type_ne_content (s : Settings) : ¬ video_type s = "content" := by
  unfold video_type
  split_ifs <;> decide

theorem video_type_ne_tts (s : Settings) : ¬ video_type s = "tts" := by
  unfold video_type
  split_ifs <;> decide

theorem type_seq_nodup (s : Settings) : (type_seq s).Nodup := by
  have h1 := video_type_ne_content s
  have h2 := video_type_ne_tts s
  have h1' : ¬ "content" = video_type s := fun h => h1 h.symm
  have h2' : ¬ "tts" = video_type s := fun h => h2 h.symm
  cases hgc : s.generate_content <;> cases hgt : s.generate_tts <;>
    simp [type_seq, hgc, hgt, h1', h2']

theorem chain_project_id (pid : Nat) (s : Settings) (t : TaskDescriptor)
    (ht : t ∈ create_project_tasks pid s) : t.project_id = pid := by
  cases hgc : s.generate_content <;> cases hgt : s.generate_tts <;>
    simp [create_project_tasks, hgc, hgt] at ht <;>
    rcases ht with h | h | h <;> (try subst h) <;> simp_all

theorem full_plan_cons (p : Nat) (rest : List Nat) (s : Settings) (strat : String) :
    full_plan (p :: rest) s strat =
      (create_project_tasks p s).map (apply_strategy strat) ++ full_plan rest s strat := by
  simp [full_plan]

theorem strategized_chain_keys (pid : Nat) (s : Settings) (strat : String) :
    ((create_project_tasks pid s).map (apply_strategy strat)).map
      (fun t => (t.project_id, t.type)) = (type_seq s).map (fun ty => (pid, ty)) := by
  rw [List.map_map]
  have hfun : ((fun t : TaskDescriptor => (t.project_id, t.type)) ∘ apply_strategy strat) =
      fun t : TaskDescriptor => (t.project_id, t.type) := by
    funext t
    simp [Function.comp, apply_strategy_project_id, apply_strategy_type]
  rw [hfun, create_project_tasks_keys]

theorem full_plan_key_mem (pids : List Nat) (s : Settings) (strat : String)
    (t : TaskDescriptor) (ht : t ∈ full_plan pids s strat) : t.project_id ∈ pids := by
  induction pids with
  | nil => simp [full_plan] at ht
  | cons p rest ih =>
    rw [full_plan_cons] at ht
    rcases List.mem_append.mp ht with h | h
    · obtain ⟨t0, ht0, rfl⟩ := List.mem_map.mp h
      rw [apply_strategy_project_id, chain_project_id p s t0 ht0]
      exact List.mem_cons_self p rest
    · exact List.mem_cons_of_mem p (ih h)

theorem full_plan_nodup (pids : List Nat) (s : Settings) (strat : String)
    (hnd : pids.Nodup) : (full_plan pids s strat).Nodup := by
  apply List.Nodup.of_map (fun t : TaskDescriptor => (t.project_id, t.type))
  induction pids with
  | nil => simp [full_plan]
  | cons p rest ih =>
    rw [full_plan_cons, List.map_append, strategized_chain_keys]
    apply List.Nodup.append
    · exact (type_seq_nodup s).map
        (fun a b hab => by simpa using congrArg Prod.snd hab)
    · exact ih (List.nodup_cons.mp hnd).2
    · intro x hx1 hx2
      obtain ⟨ty, _, rfl⟩ := List.mem_map.mp hx1
      obtain ⟨u, hu, hux⟩ := List.mem_map.mp hx2
      have : u.project_id = p := by
        have := congrArg Prod.fst hux
        simpa using this
      exact (List.nodup_cons.mp hnd).1
        (this ▸ full_plan_key_mem rest s strat u hu)

/-! ## One-pass completion of the topological sort -/

theorem deps_satisfiable_append (l1 l2 : List TaskDescriptor) (types : List String)
    (h1 : deps_satisfiable types l1) (h2 : ∀ types2, deps_satisfiable types2 l2) :
    deps_satisfiable types (l1 ++ l2) := by
  induction l1 generalizing types with
  | nil => simpa using h2 types
  | cons t rest ih => exact ⟨h1.1, ih _ h1.2⟩

theorem chain_deps_satisfiable (pid : Nat) (s : Settings) (strat : String)
    (types : List String) :
    deps_satisfiable types ((create_project_tasks pid s).map (apply_strategy strat)) := by
  cases hgc : s.generate_content <;> cases hgt : s.generate_tts <;>
    simp [create_project_tasks, hgc, hgt, deps_satisfiable,
      apply_strategy_depends_on, apply_strategy_type, mem_add_type]

theorem full_plan_deps_satisfiable (pids : List Nat) (s : Settings) (strat : String)
    (types : List String) : deps_satisfiable types (full_plan pids s strat) := by
  induction pids generalizing types with
  | nil => simp [full_plan, deps_satisfiable]
  | cons p rest ih =>
    rw [full_plan_cons]
    exact deps_satisfiable_append _ _ _ (chain_deps_satisfiable p s strat types)
      fun types2 => ih types2

theorem sort_pass_complete (l : List TaskDescriptor) (sorted : List TaskDescriptor)
    (types : List String) (hok : deps_satisfiable types l)
    (hdisj : ∀ t ∈ l, t ∉ sorted) (hnd : l.Nodup) :
    (sort_pass l sorted types).1 = sorted ++ l := by
  induction l generalizing sorted types with
  | nil => simp [sort_pass]
  | cons t rest ih =>
    rw [sort_pass, if_neg (hdisj t (List.mem_cons_self t rest)), if_pos hok.1,
      ih (sorted ++ [t]) (add_type types t.type) hok.2 ?_ (List.nodup_cons.mp hnd).2]
    · simp
    · intro u hu hmem
      rcases List.mem_append.mp hmem with h | h
      · exact hdisj u (List.mem_cons_of_mem t hu) h
      · exact (List.nodup_cons.mp hnd).1 ((List.mem_singleton.mp h) ▸ hu)

theorem sort_loop_done (plan sorted : List TaskDescriptor) (types : List String)
    (fuel : Nat) (h : ¬ sorted.length < plan.length) :
    sort_loop plan fuel sorted types = some sorted := by
  cases fuel <;> simp [sort_loop, h]

theorem sort_execution_plan_id (plan : List TaskDescriptor) (fuel : Nat)
    (hok : deps_satisfiable [] plan) (hnd : plan.Nodup) (hf : 1 ≤ fuel) :
    sort_execution_plan fuel plan = some plan := by
  obtain ⟨f, rfl⟩ : ∃ f, fuel = f + 1 := ⟨fuel - 1, by omega⟩
  rw [sort_execution_plan, sort_loop]
  by_cases hp : ([] : List TaskDescriptor).length < plan.length
  · rw [if_pos hp]
    have h1 : (sort_pass plan [] []).1 = plan := by
      simpa using sort_pass_complete plan [] [] hok (by simp) hnd
    simp only [h1]
    exact sort_loop_done plan plan _ f (by omega)
  · rw [if_neg hp]
    have hplan : plan = [] := by
      cases plan with
      | nil => rfl
      | cons a l => simp at hp
    simp [hplan]

/-! ## Theorems for C10 (sort termination and permutation) -/

/-- C10 (amended): when the project ids are pairwise distinct — as
`create_batch` guarantees for every stored batch — `_sort_execution_plan`
terminates after a single pass and returns exactly the synthesised plan
(trivially a permutation holding every task exactly once, the plan being
duplicate-free); with a duplicated project id in the list the loop never
terminates (see the counterexample). -/
theorem c10_sort_terminates (pids : List Nat) (s : Settings) (strat : String)
    (fuel : Nat) (hnd : pids.Nodup) (hf : 1 ≤ fuel) :
    sort_execution_plan fuel (full_plan pids s strat) = some (full_plan pids s strat) ∧
    (full_plan pids s strat).Nodup :=
  ⟨sort_execution_plan_id (full_plan pids s strat) fuel
      (full_plan_deps_satisfiable pids s strat [])
      (full_plan_nodup pids s strat hnd) hf,
    full_plan_nodup pids s strat hnd⟩

/-- Witness for C10's theorem: two distinct projects, full pipeline settings. -/
theorem c10_sort_terminates_witness :
    sort_execution_plan 1
        (full_plan [1, 2] { generate_content := true, generate_tts := true } "balanced") =
      some (full_plan [1, 2] { generate_content := true, generate_tts := true } "balanced") ∧
    (full_plan [1, 2] { generate_content := true, generate_tts := true } "balanced").Nodup :=
  c10_sort_terminates [1, 2] { generate_content := true, generate_tts := true }
    "balanced" 1 (by decide) (by decide)

theorem dup_plan_eq : dup_plan = [dup_task, dup_task] := by decide

theorem dup_plan_pass_stuck :
    sort_pass dup_plan [dup_task] ["video"] = ([dup_task], ["video"]) := by decide

theorem dup_plan_loop_stuck (f : Nat) :
    sort_loop dup_plan f [dup_task] ["video"] = none := by
  induction f with
  | zero => simp [sort_loop, dup_plan_eq]
  | succ f ih =>
    rw [sort_loop, if_pos (by rw [dup_plan_eq]; simp)]
    simp only [dup_plan_pass_stuck]
    exact ih

/-- C10 counterexample: on the plan the optimizer synthesises for the
duplicated project list `[1, 1]` (two equal task dicts), the
`task in sorted_plan` check skips the second copy forever, so
`while len(sorted_plan) < len(execution_plan)` never exits: no pass budget
makes the sort return. -/
theorem c10_counterexample : sort_diverges dup_plan := by
  intro fuel
  cases fuel with
  | zero => simp [sort_execution_plan, sort_loop, dup_plan_eq]
  | succ f =>
    rw [sort_execution_plan, sort_loop, if_pos (by rw [dup_plan_eq]; simp)]
    have h0 : sort_pass dup_plan [] [] = ([dup_task], ["video"]) := by decide
    simp only [h0]
    exact dup_plan_loop_stuck f

/-! ## Grouping lemmas -/

theorem group_insert_wf (groups : List (String × List TaskDescriptor))
    (t : TaskDescriptor) (h : groups_wf groups) : groups_wf (group_insert groups t) := by
  induction groups with
  | nil =>
    intro p hp u hu
    simp [group_insert] at hp
    subst hp
    simp at hu
    simp [hu]
  | cons hd tl ih =>
    obtain ⟨k, g⟩ := hd
    intro p hp u hu
    by_cases hk : k = t.type
    · simp only [group_insert, if_pos hk] at hp
      rcases List.mem_cons.mp hp with hp | hp
      · subst hp
        rcases List.mem_append.mp hu with h1 | h1
        · exact h (k, g) (List.mem_cons_self _ _) u h1
        · rw [List.mem_singleton.mp h1]
          exact hk.symm
      · exact h p (List.mem_cons_of_mem _ hp) u hu
    · simp only [group_insert, if_neg hk] at hp
      rcases List.mem_cons.mp hp with hp | hp
      · subst hp
        exact h (k, g) (List.mem_cons_self _ _) u hu
      · exact ih (fun q hq => h q (List.mem_cons_of_mem _ hq)) p hp u hu

theorem group_fold_wf (plan : List TaskDescriptor)
    (acc : List (String × List TaskDescriptor)) (h : groups_wf acc) :
    groups_wf (plan.foldl group_insert acc) := by
  induction plan generalizing acc with
  | nil => exact h
  | cons t rest ih => exact ih _ (group_insert_wf acc t h)

theorem group_insert_mem (groups : List (String × List TaskDescriptor))
    (t : TaskDescriptor) (p : String × List TaskDescriptor)
    (hp : p ∈ group_insert groups t) (u : TaskDescriptor) (hu : u ∈ p.2) :
    (∃ q ∈ groups, u ∈ q.2) ∨ u = t := by
  induction groups with
  | nil =>
    simp [group_insert] at hp
    subst hp
    simp at hu
    exact Or.inr hu
  | cons hd tl ih =>
    obtain ⟨k, g⟩ := hd
    by_cases hk : k = t.type
    · simp only [group_insert, if_pos hk] at hp
      rcases List.mem_cons.mp hp with hp | hp
      · subst hp
        rcases List.mem_append.mp hu with h1 | h1
        · exact Or.inl ⟨(k, g), List.mem_cons_self _ _, h1⟩
        · exact Or.inr (List.mem_singleton.mp h1)
      · exact Or.inl ⟨p, List.mem_cons_of_mem _ hp, hu⟩
    · simp only [group_insert, if_neg hk] at hp
      rcases List.mem_cons.mp hp with hp | hp
      · subst hp
        exact Or.inl ⟨(k, g), List.mem_cons_self _ _, hu⟩
      · rcases ih hp with ⟨q, hq, hq2⟩ | he
        · exact Or.inl ⟨q, List.mem_cons_of_mem _ hq, hq2⟩
        · exact Or.inr he

theorem group_fold_mem (plan : List TaskDescriptor)
    (acc : List (String × List TaskDescriptor)) (p : String × List TaskDescriptor)
    (hp : p ∈ plan.foldl group_insert acc) (u : TaskDescriptor) (hu : u ∈ p.2) :
    (∃ q ∈ acc, u ∈ q.2) ∨ u ∈ plan := by
  induction plan generalizing acc with
  | nil => exact Or.inl ⟨p, hp, hu⟩
  | cons t rest ih =>
    rw [List.foldl_cons] at hp
    rcases ih (group_insert acc t) hp with h | h
    · obtain ⟨q, hq, hq2⟩ := h
      rcases group_insert_mem acc t q hq u hq2 with h2 | h2
      · exact Or.inl h2
      · exact Or.inr (h2 ▸ List.mem_cons_self t rest)
    · exact Or.inr (List.mem_cons_of_mem t h)

theorem group_insert_keys (groups : List (String × List TaskDescriptor))
    (t : TaskDescriptor) :
    (group_insert groups t).map Prod.fst = add_type (groups.map Prod.fst) t.type := by
  induction groups with
  | nil => simp [group_insert, add_type]
  | cons hd tl ih =>
    obtain ⟨k, g⟩ := hd
    by_cases hk : k = t.type
    · subst hk
      simp [group_insert, add_type]
    · have hne : ¬ t.type = k := fun he => hk he.symm
      simp only [group_insert, if_neg hk, List.map_cons]
      rw [ih]
      unfold add_type
      by_cases hm : t.type ∈ tl.map Prod.fst
      · rw [if_pos hm, if_pos (by simp [List.mem_cons, hm])]
      · rw [if_neg hm, if_neg (by simp [List.mem_cons, hm, hne])]
        simp

theorem group_fold_keys (plan : List TaskDescriptor)
    (acc : List (String × List TaskDescriptor)) :
    (plan.foldl group_insert acc).map Prod.fst =
      (plan.map (fun t => t.type)).foldl add_type (acc.map Prod.fst) := by
  induction plan generalizing acc with
  | nil => rfl
  | cons t rest ih =>
    rw [List.foldl_cons, List.map_cons, List.foldl_cons, ih, group_insert_keys]

theorem foldl_add_type_absorb (l : List String) (types : List String)
    (h : ∀ x ∈ l, x ∈ types) : l.foldl add_type types = types := by
  induction l generalizing types with
  | nil => rfl
  | cons x rest ih =>
    rw [List.foldl_cons]
    have hx : add_type types x = types := by
      simp [add_type, h x (List.mem_cons_self x rest)]
    rw [hx]
    exact ih types (fun y hy => h y (List.mem_cons_of_mem x hy))

theorem foldl_add_type_fresh (l : List String) (types : List String) (hnd : l.Nodup)
    (hdisj : ∀ x ∈ l, x ∉ types) : l.foldl add_type types = types ++ l := by
  induction l generalizing types with
  | nil => simp
  | cons x rest ih =>
    rw [List.foldl_cons]
    have hx : add_type types x = types ++ [x] := by
      simp [add_type, hdisj x (List.mem_cons_self x rest)]
    rw [hx, ih (types ++ [x]) (List.nodup_cons.mp hnd).2 ?_]
    · simp
    · intro y hy hmem
      rcases List.mem_append.mp hmem with h1 | h1
      · exact hdisj y (List.mem_cons_of_mem x hy) h1
      · exact (List.nodup_cons.mp hnd).1 ((List.mem_singleton.mp h1) ▸ hy)

theorem strategized_chain_types (pid : Nat) (s : Settings) (strat : String) :
    ((create_project_tasks pid s).map (apply_strategy strat)).map (fun t => t.type) =
      type_seq s := by
  rw [List.map_map]
  have hfun : ((fun t : TaskDescriptor => t.type) ∘ apply_strategy strat) =
      fun t : TaskDescriptor => t.type := by
    funext t
    exact apply_strategy_type strat t
  rw [hfun, create_project_tasks_types]

theorem full_plan_type_mem (pids : List Nat) (s : Settings) (strat : String)
    (t : TaskDescriptor) (ht : t ∈ full_plan pids s strat) : t.type ∈ type_seq s := by
  induction pids with
  | nil => simp [full_plan] at ht
  | cons p rest ih =>
    rw [full_plan_cons] at ht
    rcases List.mem_append.mp ht with h | h
    · rw [← strategized_chain_types p s strat]
      exact List.mem_map_of_mem _ h
    · exact ih h

theorem full_plan_group_keys (p : Nat) (rest : List Nat) (s : Settings) (strat : String) :
    (group_tasks_by_resources (full_plan (p :: rest) s strat)).map Prod.fst =
      type_seq s := by
  rw [group_tasks_by_resources, group_fold_keys, full_plan_cons, List.map_append,
    List.foldl_append, strategized_chain_types]
  simp only [List.map_nil]
  have hfirst : (type_seq s).foldl add_type ([] : List String) = type_seq s := by
    simpa using foldl_add_type_fresh (type_seq s) [] (type_seq_nodup s) (by simp)
  rw [hfirst]
  apply foldl_add_type_absorb
  intro x hx
  obtain ⟨u, hu, rfl⟩ := List.mem_map.mp hx
  exact full_plan_type_mem rest s strat u hu

theorem full_plan_deps_earlier (pids : List Nat) (s : Settings) (strat : String)
    (t : TaskDescriptor) (ht : t ∈ full_plan pids s strat) (d : String)
    (hd : d ∈ t.depends_on) : earlier_in (type_seq s) d t.type := by
  simp only [full_plan, List.mem_flatMap, List.mem_map] at ht
  obtain ⟨pid, _, t0, ht0, rfl⟩ := ht
  rw [apply_strategy_type]
  rw [apply_strategy_depends_on] at hd
  have hts1 : s.generate_content = true → s.generate_tts = true →
      type_seq s = ["content", "tts", video_type s] := by
    intro h1 h2; simp [type_seq, h1, h2]
  have hts2 : s.generate_content = false → s.generate_tts = true →
      type_seq s = ["tts", video_type s] := by
    intro h1 h2; simp [type_seq, h1, h2]
  cases hgc : s.generate_content <;> cases hgt : s.generate_tts
  · -- no content, no tts: only the render task, no dependencies
    simp [create_project_tasks, hgc, hgt] at ht0
    subst ht0
    simp at hd
  · -- tts only: chain = [tts, render]
    simp [create_project_tasks, hgc, hgt] at ht0
    rcases ht0 with ht0 | ht0 <;> subst ht0
    · simp at hd
    · simp at hd
      rw [hd, hts2 hgc hgt]
      exact ⟨0, 1, by simp, by simp, by omega, rfl, rfl⟩
  · -- content only: chain = [content, render], no dependencies anywhere
    simp [create_project_tasks, hgc, hgt] at ht0
    rcases ht0 with ht0 | ht0 <;> subst ht0 <;> simp at hd
  · -- content and tts: chain = [content, tts, render]
    simp [create_project_tasks, hgc, hgt] at ht0
    rcases ht0 with ht0 | ht0 | ht0 <;> subst ht0
    · simp at hd
    · simp at hd
      rw [hd, hts1 hgc hgt]
      exact ⟨0, 1, by simp, by simp, by omega, rfl, rfl⟩
    · simp at hd
      rw [hd, hts1 hgc hgt]
      exact ⟨1, 2, by simp, by simp, by omega, rfl, rfl⟩

/-! ## Theorems for C2 (dependency ordering) -/

/-- C2: for every plan the optimizer produces (any settings, any strategy,
duplicate-free project ids as `create_batch` guarantees), the sort returns the
plan and the type groups `_execute_with_resources` then processes one after
the other respect the dependencies: every task holding a dependency `d` sits
in a group strictly later than every group containing a task of type `d`.
Since each group's `asyncio.gather` is awaited to completion before the next
group starts, no task is submitted before every task it depends on has
reached a terminal state. -/
theorem c2_dependency_levels (pids : List Nat) (s : Settings) (strat : String)
    (fuel : Nat) (hnd : pids.Nodup) (hf : 1 ≤ fuel) :
    sort_execution_plan fuel (full_plan pids s strat) = some (full_plan pids s strat) ∧
    groups_respect_deps (group_tasks_by_resources (full_plan pids s strat)) := by
  constructor
  · exact sort_execution_plan_id (full_plan pids s strat) fuel
      (full_plan_deps_satisfiable pids s strat [])
      (full_plan_nodup pids s strat hnd) hf
  · cases pids with
    | nil =>
      intro i j hi hj t ht d hd u hu hud
      simp [full_plan, group_tasks_by_resources] at hi
    | cons p rest =>
      intro i j hi hj t ht d hd u hu hud
      have hkeys : (group_tasks_by_resources (full_plan (p :: rest) s strat)).map
          Prod.fst = type_seq s := full_plan_group_keys p rest s strat
      have hlen : (type_seq s).length =
          (group_tasks_by_resources (full_plan (p :: rest) s strat)).length := by
        rw [← hkeys, List.length_map]
      have hwf : groups_wf (group_tasks_by_resources (full_plan (p :: rest) s strat)) :=
        group_fold_wf (full_plan (p :: rest) s strat) []
          (fun q hq => by simp at hq)
      have ht_plan : t ∈ full_plan (p :: rest) s strat := by
        rcases group_fold_mem (full_plan (p :: rest) s strat) [] _
            (List.get_mem _ _ hi) t ht with h | h
        · obtain ⟨q, hq, _⟩ := h
          simp at hq
        · exact h
      obtain ⟨a, b, ha, hb, hab, hda, htb⟩ :=
        full_plan_deps_earlier (p :: rest) s strat t ht_plan d hd
      have hti : t.type =
          ((group_tasks_by_resources (full_plan (p :: rest) s strat)).get ⟨i, hi⟩).1 :=
        hwf _ (List.get_mem _ _ hi) t ht
      have huj : u.type =
          ((group_tasks_by_resources (full_plan (p :: rest) s strat)).get ⟨j, hj⟩).1 :=
        hwf _ (List.get_mem _ _ hj) u hu
      have hgi : (type_seq s).get ⟨i, by omega⟩ =
          ((group_tasks_by_resources (full_plan (p :: rest) s strat)).get ⟨i, hi⟩).1 := by
        have hi2 : i < (type_seq s).length := by omega
        have hi3 : i < ((group_tasks_by_resources
            (full_plan (p :: rest) s strat)).map Prod.fst).length := by simpa using hi
        have h1 : (type_seq s)[i] = ((group_tasks_by_resources
            (full_plan (p :: rest) s strat)).map Prod.fst)[i] :=
          List.getElem_of_eq hkeys.symm hi2
        rw [List.get_eq_getElem, List.get_eq_getElem, h1, List.getElem_map]
      have hgj : (type_seq s).get ⟨j, by omega⟩ =
          ((group_tasks_by_resources (full_plan (p :: rest) s strat)).get ⟨j, hj⟩).1 := by
        have hj2 : j < (type_seq s).length := by omega
        have hj3 : j < ((group_tasks_by_resources
            (full_plan (p :: rest) s strat)).map Prod.fst).length := by simpa using hj
        have h1 : (type_seq s)[j] = ((group_tasks_by_resources
            (full_plan (p :: rest) s strat)).map Prod.fst)[j] :=
          List.getElem_of_eq hkeys.symm hj2
        rw [List.get_eq_getElem, List.get_eq_getElem, h1, List.getElem_map]
      have hnds := type_seq_nodup s
      have hbi : b = i := by
        have : (type_seq s).get ⟨b, hb⟩ = (type_seq s).get ⟨i, by omega⟩ := by
          rw [htb, hgi, hti]
        have := (List.Nodup.get_inj_iff hnds).mp this
        exact congrArg Fin.val this
      have haj : a = j := by
        have : (type_seq s).get ⟨a, ha⟩ = (type_seq s).get ⟨j, by omega⟩ := by
          rw [hda, hgj, ← huj, hud]
        have := (List.Nodup.get_inj_iff hnds).mp this
        exact congrArg Fin.val this
      omega

/-- Witness for C2's theorem: two projects, tts plus render, speed strategy. -/
theorem c2_dependency_levels_witness :
    sort_execution_plan 1 (full_plan [3, 4] { generate_tts := true } "speed") =
      some (full_plan [3, 4] { generate_tts := true } "speed") ∧
    groups_respect_deps (group_tasks_by_resources
      (full_plan [3, 4] { generate_tts := true } "speed")) :=
  c2_dependency_levels [3, 4] { generate_tts := true } "speed" 1 (by decide) (by decide)

end BatchProcessing
